import Mathlib

/-!
Shallow embedding of the frame-registry reconciliation and label-merge core
of `src/app.py` (capsule_endoscopy_labeler), together with proofs of the
specification's claims about it.

Conventions of the embedding:
* A pandas DataFrame row becomes a `Row`; a cell that may hold NaN/None is an
  `Option`.  The Python `class` column is the Lean field `cls` (`class` is a
  Lean keyword).
* A store (labeled or unlabeled Excel sheet) is a `List Row` in row order.
* `st.session_state["temp_labels"]` is a list of `(frame, flag set)` entries
  in dict insertion order.  A flag dict produced by `labeling_ui` always has
  exactly the five keys of `LABEL_COLUMNS`, inserted in that order, with 0/1
  values, so a buffered flag dict is embedded as `FlagSet := Label → Bool`
  and its `.items()` iteration enumerates `LABEL_COLUMNS` in order.
* `time.strftime(...)` is an opaque `now : String` parameter.
-/

namespace CapsuleLabeler

/-- The five entries of `LABEL_COLUMNS` (app.py line 14). -/
inductive Label where
  | Junk
  | LowQuality
  | Normal
  | Stricture
  | Ulcer
deriving DecidableEq, Fintype

/-- Column-name string of a label, as it appears in `LABEL_COLUMNS`. -/
def Label.name : Label → String
  | .Junk => "Junk"
  | .LowQuality => "LowQuality"
  | .Normal => "Normal"
  | .Stricture => "Stricture"
  | .Ulcer => "Ulcer"

/-- `LABEL_COLUMNS = ["Junk", "LowQuality", "Normal", "Stricture", "Ulcer"]`,
as the list of labels in vocabulary order. -/
def LABEL_COLUMNS : List Label :=
  [.Junk, .LowQuality, .Normal, .Stricture, .Ulcer]

/-- A buffered label-flag set: one boolean per vocabulary entry.  This embeds
the `temp_labels` dicts, which always carry all five keys with 0/1 values in
vocabulary order. -/
abbrev FlagSet : Type := Label → Bool

/-- One row of either store.  `Option` models a NaN/None cell; `flags l` is the
cell of label column `l` (`none` for rows created by discovery, `some 0/1`
after a merge). -/
structure Row where
  frame : String
  cls : Option String
  movie : Option String
  pillcam : Option String
  label_date : Option String
  flags : Label → Option Nat
deriving DecidableEq

/-- A tabular store (`df_frames` or `df_unlabeled`): rows in order. -/
abbrev Store : Type := List Row

/-- The list of `frame` cells of a store, in row order (`df['frame'].values`).
Every embedded row has a string frame, so `.dropna()` is the identity here. -/
def framesOf (df : Store) : List String :=
  df.map Row.frame

/-- `assigned = [k for k,v in label_dict.items() if v == 1]`: names of the set
flags, in dict insertion order = vocabulary order. -/
def assigned (F : FlagSet) : List String :=
  (LABEL_COLUMNS.filter fun l => F l).map Label.name

/-- Class string of the update-existing-row branch (app.py lines 162-168):
`assigned[0]` when exactly one flag, `",".join(assigned)` when more, else `""`. -/
def classUpdateBranch (F : FlagSet) : String :=
  if (assigned F).length = 1 then (assigned F).headD ""
  else if (assigned F).length > 1 then String.intercalate "," (assigned F)
  else ""

/-- Class string of the new-row branch (app.py lines 181-185):
`",".join(assigned)` when any flag is set, else `""`. -/
def classNewBranch (F : FlagSet) : String :=
  if assigned F ≠ [] then String.intercalate "," (assigned F)
  else ""

/-- Modelled from the spec (§3, class derivation rule): empty if no flag set,
the single flag name if exactly one set, else the set flags joined by a comma
in flag-vocabulary order.  Used only to compare against the two source
branches. -/
def specClass (F : FlagSet) : String :=
  match (LABEL_COLUMNS.filter fun l => F l).map Label.name with
  | [] => ""
  | [n] => n
  | ns => String.intercalate "," ns

/-- The row appended by `sync_unlabeled` for a newly discovered frame:
`{"frame": file_name}`, every other cell NaN. -/
def discoveredRow (file_name : String) : Row :=
  { frame := file_name, cls := none, movie := none, pillcam := none
    label_date := none, flags := fun _ => none }

/-- The `new_records` list built by `sync_unlabeled` (app.py lines 134-139):
one record per listed file whose name is in neither store.  The two membership
sets are computed once, before the loop, so a repeated new name produces a
record per occurrence. -/
def newRecords (df_frames df_unlabeled : Store)
    (all_frame_files : List (String × String)) : Store :=
  let existing_frames := framesOf df_frames
  let unlabeled_frames := framesOf df_unlabeled
  all_frame_files.filterMap fun ff =>
    if ff.2 ∈ existing_frames ∨ ff.2 ∈ unlabeled_frames then none
    else some (discoveredRow ff.2)

/-- `sync_unlabeled(df_frames, df_unlabeled, all_frame_files)` (app.py lines
129-142): append the new records, if any, to the unlabeled store. -/
def sync_unlabeled (df_frames df_unlabeled : Store)
    (all_frame_files : List (String × String)) : Store :=
  let new_records := newRecords df_frames df_unlabeled all_frame_files
  if new_records.isEmpty then df_unlabeled
  else df_unlabeled ++ new_records

/-- The reconciliation pass as invoked at app.py line 361:
`df_unlabeled = sync_unlabeled(df_frames, df_unlabeled, all_files)`;
`df_frames` is not reassigned and `sync_unlabeled` only reads it. -/
def reconcileOp (s : Store × Store) (all_frame_files : List (String × String)) :
    Store × Store :=
  (s.1, sync_unlabeled s.1 s.2 all_frame_files)

/-! ## Label Merge Engine (`merge_temp_labels`, app.py lines 144-193) -/

/-- The in-place update applied to the first labeled row matching the frame
(app.py lines 158-169): every flag column gets `label_dict.get(lab_col, 0)`,
`class` is rebuilt from the set flags and `label_date` is stamped; `frame`,
`movie` and `pillcam` cells of the row are not touched. -/
def updLabeledRow (now : String) (F : FlagSet) (r : Row) : Row :=
  { r with flags := fun l => some (if F l then 1 else 0)
           cls := some (classUpdateBranch F)
           label_date := some now }

/-- The `new_row` built in the else branch (app.py lines 173-185): empty
`movie`/`pillcam`, fresh `label_date`, the buffered flags and the derived
class. -/
def newLabeledRow (now : String) (frame_name : String) (F : FlagSet) : Row :=
  { frame := frame_name, movie := some "", pillcam := some ""
    label_date := some now
    flags := fun l => some (if F l then 1 else 0)
    cls := some (classNewBranch F) }

/-- Replace the first element satisfying `p` by its image under `g`, leaving
everything else in place.  This is `idx = df.index[df['frame'] == name][0]`
followed by `df.at[idx, ...] = ...`: only the first matching row is written. -/
def updateFirst (p : Row → Bool) (g : Row → Row) : Store → Store
  | [] => []
  | r :: rs => if p r then g r :: rs else r :: updateFirst p g rs

/-- One iteration of the `for frame_name, label_dict in temp_labels.items()`
loop (app.py lines 154-190), threading the two stores and `changed_count`. -/
def mergeStep (now : String) (acc : Store × Store × Nat)
    (entry : String × FlagSet) : Store × Store × Nat :=
  if entry.1 ∈ framesOf acc.1 then
    (updateFirst (fun r => r.frame == entry.1) (updLabeledRow now entry.2)
       acc.1,
     acc.2.1, acc.2.2 + 1)
  else
    (acc.1 ++ [newLabeledRow now entry.1 entry.2],
     acc.2.1.filter (fun r => r.frame ≠ entry.1),
     acc.2.2 + 1)

/-- Result of `merge_temp_labels`, including the session buffer it leaves
behind (the function clears `st.session_state["temp_labels"]` at line 192,
before returning and before any save is attempted by the caller). -/
structure MergeOut where
  df_frames : Store
  df_unlabeled : Store
  changed_count : Nat
  temp_labels_after : List (String × FlagSet)
deriving DecidableEq

/-- `merge_temp_labels(df_frames, df_unlabeled)` (app.py lines 144-193) with
the session buffer passed explicitly.  An empty buffer returns immediately
with `changed_count = 0`; otherwise every buffered entry is merged and the
buffer is cleared. -/
def merge_temp_labels (now : String) (temp_labels : List (String × FlagSet))
    (df_frames df_unlabeled : Store) : MergeOut :=
  if temp_labels.isEmpty then
    ⟨df_frames, df_unlabeled, 0, temp_labels⟩
  else
    let res := temp_labels.foldl (mergeStep now) (df_frames, df_unlabeled, 0)
    ⟨res.1, res.2.1, res.2.2, []⟩

/-- The merge as a pure transition on the pair of stores, as used by `main`
(line 376). -/
def mergeOp (s : Store × Store) (now : String)
    (temp_labels : List (String × FlagSet)) : Store × Store :=
  let m := merge_temp_labels now temp_labels s.1 s.2
  (m.df_frames, m.df_unlabeled)

/-! ## The "Update Excel" commit handler (app.py lines 375-384) -/

/-- A persistence write performed by the commit handler: the labeled Excel
(`frames_ds_file_id`) or the unlabeled Excel (`unlabeled_file_id`). -/
inductive WriteTarget where
  | framesFile
  | unlabeledFile
deriving DecidableEq

/-- Observable outcome of one click of "Update Excel". -/
structure RunResult where
  /-- `st.session_state["temp_labels"]` after the run (session state survives
  an exception raised by an upload). -/
  tempAfter : List (String × FlagSet)
  /-- Uploads completed, in order. -/
  writes : List WriteTarget
  /-- Whether an upload failure aborted the run. -/
  raised : Bool
deriving DecidableEq

/-- The body of `if st.button("Update Excel")` (app.py lines 375-384):
merge, then — only when `changed_count > 0` — upload the labeled store and,
when an unlabeled file id is configured, the unlabeled store.  `saveOk = false`
models the first upload raising; `merge_temp_labels` has already cleared the
buffer at that point. -/
def updateExcelRun (now : String) (temp_labels : List (String × FlagSet))
    (df_frames df_unlabeled : Store) (hasUnlabeledId : Bool) (saveOk : Bool) :
    RunResult :=
  let m := merge_temp_labels now temp_labels df_frames df_unlabeled
  if m.changed_count > 0 then
    if saveOk then
      ⟨m.temp_labels_after,
       .framesFile :: (if hasUnlabeledId then [.unlabeledFile] else []),
       false⟩
    else
      ⟨m.temp_labels_after, [], true⟩
  else
    ⟨m.temp_labels_after, [], false⟩

/-! ## Operation sequences over the two stores -/

/-- One core operation on the pair (LabeledStore, UnlabeledStore): a
reconciliation pass or a merge commit. -/
inductive Op where
  | reconcile (all_frame_files : List (String × String))
  | merge (now : String) (temp_labels : List (String × FlagSet))

/-- Apply one operation to the pair of stores. -/
def applyOp (s : Store × Store) : Op → Store × Store
  | .reconcile ff => reconcileOp s ff
  | .merge now temp => mergeOp s now temp

/-- Apply a sequence of operations in order. -/
def applyOps (s : Store × Store) (ops : List Op) : Store × Store :=
  ops.foldl applyOp s

/-- No frame identifier occurs in both stores. -/
def disjointStores (s : Store × Store) : Prop :=
  ∀ x ∈ framesOf s.1, x ∉ framesOf s.2

instance (s : Store × Store) : Decidable (disjointStores s) := by
  unfold disjointStores
  infer_instance

/-! ## Navigation (app.py lines 238-255) -/

/-- Which navigation button, if any, was clicked during the run. -/
inductive NavButton where
  | noClick
  | previousBtn
  | nextBtn
deriving DecidableEq

/-- `navigation(df)` (app.py lines 238-255), reduced to the index used for
`df.iloc[idx]`.  `dfLen` is `len(df)` after filtering and `current_index` is
the session cursor (`none` when not yet initialised).  Returns `none` when the
filtered sequence is empty (no row is accessed); otherwise the access index:
"Previous" applies `max(ci - 1, 0)`, "Next" applies `min(ci + 1, len - 1)`,
and no click leaves the stored cursor as is. -/
def navigation (dfLen : Nat) (current_index : Option Nat) (b : NavButton) :
    Option Nat :=
  if dfLen = 0 then none
  else
    let ci := current_index.getD 0
    some (match b with
      | .noClick => ci
      | .previousBtn => max (ci - 1) 0
      | .nextBtn => min (ci + 1) (dfLen - 1))

/-! ## Helper lemmas -/

theorem mergeStep_count_one (now : String) (acc : Store × Store × Nat)
    (e : String × FlagSet) :
    (mergeStep now acc e).2.2 = acc.2.2 + 1 := by
  rcases acc with ⟨f, u, c⟩
  by_cases h : e.1 ∈ framesOf f <;> simp [mergeStep, h]

theorem mergeStep_count (now : String) (temp : List (String × FlagSet))
    (acc : Store × Store × Nat) :
    (temp.foldl (mergeStep now) acc).2.2 = acc.2.2 + temp.length := by
  induction temp generalizing acc with
  | nil => simp
  | cons e temp ih =>
    rw [List.foldl_cons, ih, mergeStep_count_one]
    simp [Nat.add_assoc, Nat.add_comm 1 temp.length]

theorem changed_count_eq (now : String) (temp : List (String × FlagSet))
    (df_frames df_unlabeled : Store) :
    (merge_temp_labels now temp df_frames df_unlabeled).changed_count =
      temp.length := by
  cases temp with
  | nil => rfl
  | cons e temp =>
    have h1 := mergeStep_count now temp
      (mergeStep now (df_frames, df_unlabeled, 0) e)
    have h2 := mergeStep_count_one now (df_frames, df_unlabeled, 0) e
    have h3 : ((df_frames, df_unlabeled, 0) : Store × Store × Nat).2.2 = 0 :=
      rfl
    simp only [merge_temp_labels, List.isEmpty_cons, Bool.false_eq_true,
      if_false, List.foldl_cons, List.length_cons]
    omega

theorem temp_labels_after_empty (now : String) (temp : List (String × FlagSet))
    (df_frames df_unlabeled : Store) :
    (merge_temp_labels now temp df_frames df_unlabeled).temp_labels_after = [] := by
  cases temp with
  | nil => rfl
  | cons e temp => simp [merge_temp_labels]

theorem sync_unlabeled_eq_append (df_frames df_unlabeled : Store)
    (all_frame_files : List (String × String)) :
    sync_unlabeled df_frames df_unlabeled all_frame_files =
      df_unlabeled ++ newRecords df_frames df_unlabeled all_frame_files := by
  unfold sync_unlabeled
  cases h : (newRecords df_frames df_unlabeled all_frame_files).isEmpty with
  | true => simp [List.isEmpty_iff.mp h]
  | false => simp

theorem newRecords_cons_known (df_frames df_unlabeled : Store)
    (p : String × String) (ff : List (String × String))
    (h : p.2 ∈ framesOf df_frames ∨ p.2 ∈ framesOf df_unlabeled) :
    newRecords df_frames df_unlabeled (p :: ff) =
      newRecords df_frames df_unlabeled ff := by
  unfold newRecords
  rw [List.filterMap_cons, if_pos h]

theorem newRecords_cons_new (df_frames df_unlabeled : Store)
    (p : String × String) (ff : List (String × String))
    (h : ¬(p.2 ∈ framesOf df_frames ∨ p.2 ∈ framesOf df_unlabeled)) :
    newRecords df_frames df_unlabeled (p :: ff) =
      discoveredRow p.2 :: newRecords df_frames df_unlabeled ff := by
  unfold newRecords
  rw [List.filterMap_cons, if_neg h]

theorem framesOf_newRecords (df_frames df_unlabeled : Store)
    (all_frame_files : List (String × String)) :
    framesOf (newRecords df_frames df_unlabeled all_frame_files) =
      (all_frame_files.map Prod.snd).filter
        (fun n => decide (n ∉ framesOf df_frames ∧ n ∉ framesOf df_unlabeled)) := by
  induction all_frame_files with
  | nil => rfl
  | cons p ff ih =>
    by_cases h : p.2 ∈ framesOf df_frames ∨ p.2 ∈ framesOf df_unlabeled
    · rw [newRecords_cons_known _ _ _ _ h, ih, List.map_cons,
        List.filter_cons_of_neg]
      simp only [decide_eq_true_eq]
      tauto
    · have hmem : p.2 ∉ framesOf df_frames ∧ p.2 ∉ framesOf df_unlabeled := by
        tauto
      rw [newRecords_cons_new _ _ _ _ h, List.map_cons]
      simp only [List.filter_cons, decide_eq_true_eq]
      rw [if_pos hmem, ← ih]
      rfl

theorem mem_framesOf_newRecords (df_frames df_unlabeled : Store)
    (all_frame_files : List (String × String)) (n : String)
    (hn : n ∈ framesOf (newRecords df_frames df_unlabeled all_frame_files)) :
    n ∈ all_frame_files.map Prod.snd ∧
      n ∉ framesOf df_frames ∧ n ∉ framesOf df_unlabeled := by
  rw [framesOf_newRecords] at hn
  have := List.mem_filter.mp hn
  exact ⟨this.1, by simpa using this.2⟩

theorem framesOf_append (a b : Store) :
    framesOf (a ++ b) = framesOf a ++ framesOf b :=
  List.map_append _ _ _

theorem sync_unlabeled_idem (df_frames df_unlabeled : Store)
    (D : List (String × String)) :
    sync_unlabeled df_frames (sync_unlabeled df_frames df_unlabeled D) D =
      sync_unlabeled df_frames df_unlabeled D := by
  have hnil : newRecords df_frames (sync_unlabeled df_frames df_unlabeled D) D
      = [] := by
    simp only [newRecords, List.filterMap_eq_nil_iff]
    intro p hp
    have hcond : p.2 ∈ framesOf df_frames ∨
        p.2 ∈ framesOf (sync_unlabeled df_frames df_unlabeled D) := by
      by_cases hf : p.2 ∈ framesOf df_frames
      · exact Or.inl hf
      · by_cases hu : p.2 ∈ framesOf df_unlabeled
        · refine Or.inr ?_
          rw [sync_unlabeled_eq_append, framesOf_append, List.mem_append]
          exact Or.inl hu
        · refine Or.inr ?_
          rw [sync_unlabeled_eq_append, framesOf_append, List.mem_append]
          refine Or.inr ?_
          rw [framesOf_newRecords, List.mem_filter]
          exact ⟨List.mem_map_of_mem Prod.snd hp, by simp [hf, hu]⟩
    exact if_pos hcond
  rw [sync_unlabeled_eq_append df_frames (sync_unlabeled df_frames df_unlabeled D)
    D, hnil, List.append_nil]

theorem framesOf_updateFirst (p : Row → Bool) (g : Row → Row)
    (hg : ∀ r, (g r).frame = r.frame) (l : Store) :
    framesOf (updateFirst p g l) = framesOf l := by
  induction l with
  | nil => rfl
  | cons r rs ih =>
    unfold updateFirst
    by_cases h : p r
    · rw [if_pos h]
      simp only [framesOf, List.map_cons, hg]
    · rw [if_neg h]
      simp only [framesOf, List.map_cons] at ih ⊢
      rw [ih]

theorem mem_framesOf_filter_ne (u : Store) (name x : String)
    (hx : x ∈ framesOf (u.filter (fun r => r.frame ≠ name))) :
    x ∈ framesOf u ∧ x ≠ name := by
  unfold framesOf at hx
  rcases List.mem_map.mp hx with ⟨r, hr, rfl⟩
  have hmf := List.mem_filter.mp hr
  exact ⟨List.mem_map_of_mem _ hmf.1, by simpa using hmf.2⟩

theorem disjoint_reconcileOp (s : Store × Store) (D : List (String × String))
    (h : disjointStores s) : disjointStores (reconcileOp s D) := by
  rcases s with ⟨f, u⟩
  intro x hxf hx
  simp only [reconcileOp] at hxf hx
  rw [sync_unlabeled_eq_append, framesOf_append, List.mem_append] at hx
  rcases hx with hxu | hxn
  · exact h x hxf hxu
  · exact (mem_framesOf_newRecords _ _ _ _ hxn).2.1 hxf

theorem disjoint_mergeStep (now : String) (acc : Store × Store × Nat)
    (e : String × FlagSet) (h : disjointStores (acc.1, acc.2.1)) :
    disjointStores ((mergeStep now acc e).1, (mergeStep now acc e).2.1) := by
  rcases acc with ⟨f, u, c⟩
  rcases e with ⟨name, F⟩
  unfold mergeStep
  dsimp only
  by_cases hmem : name ∈ framesOf f
  · rw [if_pos hmem]
    intro x hxf hxu
    dsimp only at hxf hxu
    rw [framesOf_updateFirst (fun r => r.frame == name) (updLabeledRow now F)
      (fun r => rfl)] at hxf
    exact h x hxf hxu
  · rw [if_neg hmem]
    intro x hxf hxu
    dsimp only at hxf hxu
    have hx' := mem_framesOf_filter_ne u name x hxu
    rw [framesOf_append, List.mem_append] at hxf
    rcases hxf with hxf | hxn
    · exact h x hxf hx'.1
    · have : x = name := by
        simpa [framesOf, newLabeledRow] using hxn
      exact hx'.2 this

theorem disjoint_mergeFold (now : String) (temp : List (String × FlagSet))
    (acc : Store × Store × Nat) (h : disjointStores (acc.1, acc.2.1)) :
    disjointStores ((temp.foldl (mergeStep now) acc).1,
      (temp.foldl (mergeStep now) acc).2.1) := by
  induction temp generalizing acc with
  | nil => exact h
  | cons e temp ih =>
    rw [List.foldl_cons]
    exact ih _ (disjoint_mergeStep now acc e h)

theorem disjoint_applyOp (s : Store × Store) (op : Op)
    (h : disjointStores s) : disjointStores (applyOp s op) := by
  cases op with
  | reconcile D => exact disjoint_reconcileOp s D h
  | merge now temp =>
    show disjointStores (mergeOp s now temp)
    unfold mergeOp merge_temp_labels
    cases htemp : temp.isEmpty with
    | true => simpa using h
    | false =>
      simpa using disjoint_mergeFold now temp (s.1, s.2, 0) (by simpa using h)

/-! ## Claim theorems -/

/-- C2: for every flag set F, the derived class string equals "" when no flag
is set, the single flag name when exactly one is set, and otherwise the set
flag names joined by "," in the fixed vocabulary order
(Junk, LowQuality, Normal, Stricture, Ulcer) — in both the
update-existing-row branch and the new-row branch of the merge engine. -/
theorem class_derivation_correct (F : FlagSet) :
    classUpdateBranch F = specClass F ∧ classNewBranch F = specClass F := by
  revert F
  decide

/-- C4: merging with an empty Edit Buffer returns `changed_count = 0` and
leaves both stores exactly unchanged, and any commit whose merge reports a
zero `changed_count` performs no persistence write. -/
theorem noop_commit (now : String) (df_frames df_unlabeled : Store)
    (hasUnlabeledId saveOk : Bool) (temp : List (String × FlagSet)) :
    ((merge_temp_labels now [] df_frames df_unlabeled).df_frames = df_frames ∧
     (merge_temp_labels now [] df_frames df_unlabeled).df_unlabeled = df_unlabeled ∧
     (merge_temp_labels now [] df_frames df_unlabeled).changed_count = 0) ∧
    ((merge_temp_labels now temp df_frames df_unlabeled).changed_count = 0 →
      (updateExcelRun now temp df_frames df_unlabeled hasUnlabeledId saveOk).writes
        = []) := by
  refine ⟨⟨rfl, rfl, rfl⟩, fun hc => ?_⟩
  simp [updateExcelRun, hc]

theorem noop_commit_witness :
    (merge_temp_labels "t" [] [] []).changed_count = 0 ∧
    (updateExcelRun "t" [] [] [] true true).writes = [] :=
  ⟨by decide, (noop_commit "t" [] [] true true []).2 (by decide)⟩

/-- C7 counterexample: with one buffered edit and a failing save, the commit
raises, yet the Edit Buffer has been cleared, and a retry of the commit finds
nothing to merge and performs no write — refuting the claim that the buffer
is not cleared on a failed save. -/
theorem save_failure_loses_buffer_cex :
    (updateExcelRun "t" [("f", fun _ => true)] [] [discoveredRow "f"]
        true false).raised = true ∧
    (updateExcelRun "t" [("f", fun _ => true)] [] [discoveredRow "f"]
        true false).tempAfter = [] ∧
    (updateExcelRun "u"
        ((updateExcelRun "t" [("f", fun _ => true)] [] [discoveredRow "f"]
            true false).tempAfter)
        [] [discoveredRow "f"] true true).writes = [] := by
  decide

/-- C7 amended: `merge_temp_labels` clears the Edit Buffer before the caller
attempts any save, so after a commit whose save fails the buffer is empty;
a retry of the commit therefore merges zero edits and performs no write — the
buffered edits are lost rather than re-attempted. -/
theorem save_failure_buffer_already_cleared (now now2 : String)
    (temp : List (String × FlagSet)) (df_frames df_unlabeled f2 u2 : Store)
    (hasUnlabeledId hasId2 saveOk2 : Bool) :
    (updateExcelRun now temp df_frames df_unlabeled hasUnlabeledId
        false).tempAfter = [] ∧
    (merge_temp_labels now2
        ((updateExcelRun now temp df_frames df_unlabeled hasUnlabeledId
            false).tempAfter) f2 u2).changed_count = 0 ∧
    (updateExcelRun now2
        ((updateExcelRun now temp df_frames df_unlabeled hasUnlabeledId
            false).tempAfter) f2 u2 hasId2 saveOk2).writes = [] := by
  have hta : ∀ sOk, (updateExcelRun now temp df_frames df_unlabeled
      hasUnlabeledId sOk).tempAfter = [] := by
    intro sOk
    unfold updateExcelRun
    by_cases hc : (merge_temp_labels now temp df_frames df_unlabeled).changed_count > 0 <;>
      cases sOk <;> simp [hc, temp_labels_after_empty]
  refine ⟨hta false, ?_, ?_⟩
  · rw [hta false, changed_count_eq]
    rfl
  · rw [hta false]
    simp [updateExcelRun, changed_count_eq]

/-- C1 counterexample: a discovery list that repeats the new name "f" (under
two distinct file ids) makes `sync_unlabeled` append one row per occurrence,
so the unlabeled store gains two rows named "f" and the frame identifier is
no longer unique across the union of the stores. -/
theorem reconcile_duplicate_discovery_cex :
    framesOf (sync_unlabeled [] [] [("id1", "f"), ("id2", "f")]) = ["f", "f"] ∧
    ¬ (framesOf ([] : Store) ++
        framesOf (sync_unlabeled [] [] [("id1", "f"), ("id2", "f")])).Nodup := by
  decide

theorem merge_single_new (now name : String) (F : FlagSet)
    (df_frames df_unlabeled : Store) (hf : name ∉ framesOf df_frames) :
    merge_temp_labels now [(name, F)] df_frames df_unlabeled =
      ⟨df_frames ++ [newLabeledRow now name F],
       df_unlabeled.filter (fun r => r.frame ≠ name), 1, []⟩ := by
  simp [merge_temp_labels, mergeStep, hf]

theorem merge_single_existing (now name : String) (F : FlagSet)
    (df_frames df_unlabeled : Store) (hf : name ∈ framesOf df_frames) :
    merge_temp_labels now [(name, F)] df_frames df_unlabeled =
      ⟨updateFirst (fun r => r.frame == name) (updLabeledRow now F) df_frames,
       df_unlabeled, 1, []⟩ := by
  simp [merge_temp_labels, mergeStep, hf]

theorem updateFirst_append (p : Row → Bool) (g : Row → Row) (l₁ l₂ : Store)
    (r : Row) (h₁ : ∀ x ∈ l₁, p x = false) (hr : p r = true) :
    updateFirst p g (l₁ ++ r :: l₂) = l₁ ++ g r :: l₂ := by
  induction l₁ with
  | nil => simp [updateFirst, hr]
  | cons a l₁ ih =>
    have ha : p a = false := h₁ a (List.mem_cons_self a l₁)
    have hstep : updateFirst p g ((a :: l₁) ++ r :: l₂) =
        if p a then g a :: (l₁ ++ r :: l₂)
        else a :: updateFirst p g (l₁ ++ r :: l₂) := rfl
    rw [hstep, ha]
    simp only [Bool.false_eq_true, if_false, List.cons_append]
    rw [ih (fun x hx => h₁ x (List.mem_cons_of_mem a hx))]

/-- C1 amended: the reconciler skips any discovered name already present in
either store, so when the discovery list carries pairwise-distinct names and
the frame identifier is unique across the union of the stores, reconciliation
appends at most one new row per distinct name and the identifier stays unique
across the union after the pass (and hence after any number of passes).  A
discovery list repeating a not-yet-known name, however, appends one row per
occurrence (see the counterexample). -/
theorem reconcile_nodup_of_nodup_discovery (df_frames df_unlabeled : Store)
    (D : List (String × String)) (hD : (D.map Prod.snd).Nodup)
    (hfu : (framesOf df_frames ++ framesOf df_unlabeled).Nodup) :
    (framesOf df_frames ++
      framesOf (sync_unlabeled df_frames df_unlabeled D)).Nodup := by
  rw [sync_unlabeled_eq_append, framesOf_append]
  rcases List.nodup_append.mp hfu with ⟨hf, hu, hdisj⟩
  have hnn : (framesOf (newRecords df_frames df_unlabeled D)).Nodup := by
    rw [framesOf_newRecords]
    exact hD.filter _
  have hnf : ∀ x ∈ framesOf (newRecords df_frames df_unlabeled D),
      x ∉ framesOf df_frames :=
    fun x hx => (mem_framesOf_newRecords _ _ _ _ hx).2.1
  have hnu : ∀ x ∈ framesOf (newRecords df_frames df_unlabeled D),
      x ∉ framesOf df_unlabeled :=
    fun x hx => (mem_framesOf_newRecords _ _ _ _ hx).2.2
  rw [List.nodup_append]
  refine ⟨hf, ?_, ?_⟩
  · rw [List.nodup_append]
    exact ⟨hu, hnn, fun x hxu hxn => hnu x hxn hxu⟩
  · intro x hxf hx
    rcases List.mem_append.mp hx with hxu | hxn
    · exact hdisj hxf hxu
    · exact hnf x hxn hxf

theorem reconcile_nodup_witness :
    ((([("i", "b"), ("j", "c")] : List (String × String)).map Prod.snd).Nodup ∧
      (framesOf [discoveredRow "a"] ++ framesOf [discoveredRow "b"]).Nodup) ∧
    (framesOf [discoveredRow "a"] ++
      framesOf (sync_unlabeled [discoveredRow "a"] [discoveredRow "b"]
        [("i", "b"), ("j", "c")])).Nodup :=
  ⟨⟨by decide, by decide⟩,
    reconcile_nodup_of_nodup_discovery [discoveredRow "a"] [discoveredRow "b"]
      [("i", "b"), ("j", "c")] (by decide) (by decide)⟩

/-- C5: running the Registry Reconciler twice in a row with the same stores
and the same discovery list yields the same UnlabeledStore as running it
once, and a reconciliation pass never changes the LabeledStore. -/
theorem reconcile_idempotent (df_frames df_unlabeled : Store)
    (D : List (String × String)) :
    reconcileOp (reconcileOp (df_frames, df_unlabeled) D) D =
      reconcileOp (df_frames, df_unlabeled) D ∧
    (reconcileOp (df_frames, df_unlabeled) D).1 = df_frames := by
  constructor
  · simp only [reconcileOp]
    rw [sync_unlabeled_idem]
  · rfl

/-- C6: starting from stores whose frame-identifier sets are disjoint, any
sequence of reconcile and merge operations keeps them disjoint: no frame
identifier ever appears in both the labeled and the unlabeled store. -/
theorem stores_stay_disjoint (s : Store × Store) (ops : List Op)
    (h : disjointStores s) : disjointStores (applyOps s ops) := by
  induction ops generalizing s with
  | nil => exact h
  | cons op ops ih =>
    exact ih (applyOp s op) (disjoint_applyOp s op h)

theorem stores_stay_disjoint_witness :
    disjointStores ([discoveredRow "a"], [discoveredRow "b"]) ∧
    disjointStores (applyOps ([discoveredRow "a"], [discoveredRow "b"])
      [Op.reconcile [("i", "c")],
       Op.merge "t" [("b", fun _ => true)]]) :=
  ⟨by decide,
    stores_stay_disjoint ([discoveredRow "a"], [discoveredRow "b"])
      [Op.reconcile [("i", "c")], Op.merge "t" [("b", fun _ => true)]]
      (by decide)⟩

/-- C3: merging the buffered edit of a frame that is absent from the
LabeledStore (and present only in the UnlabeledStore) appends to the
LabeledStore exactly one new row carrying that frame, the buffered flags as
0/1 cells, a set (non-empty) `label_date`, and empty-string `movie` and
`pillcam`; the frame is removed from the UnlabeledStore.  This holds for any
flag set, and when no flag is set the frame is still promoted, with class
`""`. -/
theorem merge_promotes_unlabeled (now name : String) (F : FlagSet)
    (df_frames df_unlabeled : Store) (hnow : now ≠ "")
    (hf : name ∉ framesOf df_frames) (hu : name ∈ framesOf df_unlabeled) :
    ∃ r : Row,
      (merge_temp_labels now [(name, F)] df_frames df_unlabeled).df_frames =
        df_frames ++ [r] ∧
      r.frame = name ∧
      (∀ l, r.flags l = some (if F l then 1 else 0)) ∧
      r.label_date.isSome = true ∧ r.label_date ≠ some "" ∧
      r.movie = some "" ∧ r.pillcam = some "" ∧
      ((∀ l, F l = false) → r.cls = some "") ∧
      name ∉ framesOf (merge_temp_labels now [(name, F)] df_frames
        df_unlabeled).df_unlabeled := by
  refine ⟨newLabeledRow now name F, ?_, rfl, fun l => rfl, rfl, ?_, rfl, rfl,
    ?_, ?_⟩
  · rw [merge_single_new now name F df_frames df_unlabeled hf]
  · simpa [newLabeledRow] using hnow
  · intro hall
    have hass : assigned F = [] := by
      simp [assigned, hall]
    simp [newLabeledRow, classNewBranch, hass]
  · rw [merge_single_new now name F df_frames df_unlabeled hf]
    intro hmem
    exact (mem_framesOf_filter_ne df_unlabeled name name hmem).2 rfl

theorem merge_promotes_unlabeled_witness :
    ("t" ≠ "" ∧ "f" ∉ framesOf ([] : Store) ∧
      "f" ∈ framesOf [discoveredRow "f"]) ∧
    (∃ r : Row,
      (merge_temp_labels "t" [("f", fun _ : Label => false)] []
        [discoveredRow "f"]).df_frames = [] ++ [r] ∧
      r.frame = "f" ∧
      (∀ l, r.flags l = some (if (fun _ : Label => false) l then 1 else 0)) ∧
      r.label_date.isSome = true ∧ r.label_date ≠ some "" ∧
      r.movie = some "" ∧ r.pillcam = some "" ∧
      ((∀ l, (fun _ : Label => false) l = false) → r.cls = some "") ∧
      "f" ∉ framesOf (merge_temp_labels "t" [("f", fun _ : Label => false)] []
        [discoveredRow "f"]).df_unlabeled) :=
  ⟨⟨by decide, by decide, by decide⟩,
    merge_promotes_unlabeled "t" "f" (fun _ : Label => false) []
      [discoveredRow "f"] (by decide) (by decide) (by decide)⟩

/-- C8: merging the buffered edit of a frame whose first occurrence in the
LabeledStore is row `r` rewrites exactly that row — its flag cells, its
class and its `label_date` — keeping the row's `frame`, `movie` and `pillcam`
and leaving every other labeled row, the whole UnlabeledStore, and the row
counts unchanged. -/
theorem merge_updates_existing_labeled (now name : String) (F : FlagSet)
    (f₁ f₂ : Store) (r : Row) (df_unlabeled : Store)
    (hr : r.frame = name) (hfirst : ∀ x ∈ f₁, x.frame ≠ name) :
    (merge_temp_labels now [(name, F)] (f₁ ++ r :: f₂) df_unlabeled).df_frames
      = f₁ ++ { r with flags := fun l => some (if F l then 1 else 0),
                       cls := some (classUpdateBranch F),
                       label_date := some now } :: f₂ ∧
    (merge_temp_labels now [(name, F)] (f₁ ++ r :: f₂)
      df_unlabeled).df_unlabeled = df_unlabeled ∧
    (merge_temp_labels now [(name, F)] (f₁ ++ r :: f₂)
      df_unlabeled).df_frames.length = (f₁ ++ r :: f₂).length ∧
    (merge_temp_labels now [(name, F)] (f₁ ++ r :: f₂)
      df_unlabeled).changed_count = 1 := by
  have hmem : name ∈ framesOf (f₁ ++ r :: f₂) := by
    rw [framesOf_append, List.mem_append]
    exact Or.inr (by simp [framesOf, hr])
  rw [merge_single_existing now name F _ df_unlabeled hmem]
  have hupd : updateFirst (fun x => x.frame == name) (updLabeledRow now F)
      (f₁ ++ r :: f₂) = f₁ ++ updLabeledRow now F r :: f₂ :=
    updateFirst_append _ _ f₁ f₂ r
      (fun x hx => by simpa using hfirst x hx) (by simp [hr])
  refine ⟨?_, rfl, ?_, rfl⟩
  · rw [hupd]
    rfl
  · rw [hupd]
    simp

theorem merge_updates_existing_labeled_witness :
    ((discoveredRow "g").frame = "g" ∧
      (∀ x ∈ [discoveredRow "a"], x.frame ≠ "g")) ∧
    ((merge_temp_labels "t" [("g", fun _ => true)]
        ([discoveredRow "a"] ++ discoveredRow "g" :: [discoveredRow "b"])
        []).df_frames
      = [discoveredRow "a"] ++
          { discoveredRow "g" with
              flags := fun l => some (if (fun _ => true) l then 1 else 0),
              cls := some (classUpdateBranch (fun _ => true)),
              label_date := some "t" } :: [discoveredRow "b"] ∧
    (merge_temp_labels "t" [("g", fun _ => true)]
        ([discoveredRow "a"] ++ discoveredRow "g" :: [discoveredRow "b"])
        []).df_unlabeled = [] ∧
    (merge_temp_labels "t" [("g", fun _ => true)]
        ([discoveredRow "a"] ++ discoveredRow "g" :: [discoveredRow "b"])
        []).df_frames.length
      = ([discoveredRow "a"] ++ discoveredRow "g" :: [discoveredRow "b"]).length ∧
    (merge_temp_labels "t" [("g", fun _ => true)]
        ([discoveredRow "a"] ++ discoveredRow "g" :: [discoveredRow "b"])
        []).changed_count = 1) :=
  ⟨⟨by decide, by decide⟩,
    merge_updates_existing_labeled "t" "g" (fun _ => true)
      [discoveredRow "a"] [discoveredRow "b"] (discoveredRow "g") []
      (by decide) (by decide)⟩

/-- C10: when the LabeledStore already holds several rows with the same frame
identifier, merging a buffered edit for that frame rewrites only the first
matching row; every later duplicate row — such as `d` — survives unchanged
(same flags, class and label_date, since the row object itself is untouched)
and no row is removed. -/
theorem merge_touches_only_first_duplicate (now name : String) (F : FlagSet)
    (f₁ f₂ : Store) (r d : Row) (df_unlabeled : Store)
    (hr : r.frame = name) (hfirst : ∀ x ∈ f₁, x.frame ≠ name)
    (hd : d ∈ f₂) (hdn : d.frame = name) :
    (merge_temp_labels now [(name, F)] (f₁ ++ r :: f₂) df_unlabeled).df_frames
      = f₁ ++ updLabeledRow now F r :: f₂ ∧
    d ∈ (merge_temp_labels now [(name, F)] (f₁ ++ r :: f₂)
      df_unlabeled).df_frames ∧
    (merge_temp_labels now [(name, F)] (f₁ ++ r :: f₂)
      df_unlabeled).df_frames.length = (f₁ ++ r :: f₂).length := by
  have hmem : name ∈ framesOf (f₁ ++ r :: f₂) := by
    rw [framesOf_append, List.mem_append]
    exact Or.inr (by simp [framesOf, hr])
  rw [merge_single_existing now name F _ df_unlabeled hmem]
  have hupd : updateFirst (fun x => x.frame == name) (updLabeledRow now F)
      (f₁ ++ r :: f₂) = f₁ ++ updLabeledRow now F r :: f₂ :=
    updateFirst_append _ _ f₁ f₂ r
      (fun x hx => by simpa using hfirst x hx) (by simp [hr])
  refine ⟨hupd, ?_, ?_⟩
  · rw [hupd]
    exact List.mem_append.mpr (Or.inr (List.mem_cons_of_mem _ hd))
  · rw [hupd]
    simp

theorem merge_touches_only_first_duplicate_witness :
    ((discoveredRow "g").frame = "g" ∧
      (∀ x ∈ ([] : Store), x.frame ≠ "g") ∧
      discoveredRow "g" ∈ [discoveredRow "g"] ∧
      (discoveredRow "g").frame = "g") ∧
    ((merge_temp_labels "t" [("g", fun _ => true)]
        ([] ++ discoveredRow "g" :: [discoveredRow "g"]) []).df_frames
      = [] ++ updLabeledRow "t" (fun _ => true) (discoveredRow "g") ::
          [discoveredRow "g"] ∧
    discoveredRow "g" ∈ (merge_temp_labels "t" [("g", fun _ => true)]
        ([] ++ discoveredRow "g" :: [discoveredRow "g"]) []).df_frames ∧
    (merge_temp_labels "t" [("g", fun _ => true)]
        ([] ++ discoveredRow "g" :: [discoveredRow "g"]) []).df_frames.length
      = ([] ++ discoveredRow "g" :: [discoveredRow "g"]).length) :=
  ⟨⟨by decide, by decide, by decide, by decide⟩,
    merge_touches_only_first_duplicate "t" "g" (fun _ => true) []
      [discoveredRow "g"] (discoveredRow "g") (discoveredRow "g") []
      (by decide) (by decide) (by decide) (by decide)⟩

/-- C9 counterexample: a cursor of 5 is reachable (Next on a six-row filtered
sequence); if the filtered sequence then shrinks to one row, a run with no
click accesses index 5 and a run with "Previous" accesses index 4 — both out
of range for a non-empty sequence of length 1, refuting the claim that the
row access never indexes out of range. -/
theorem navigation_out_of_range_cex :
    navigation 6 (some 4) NavButton.nextBtn = some 5 ∧
    navigation 1 (some 5) NavButton.noClick = some 5 ∧
    navigation 1 (some 5) NavButton.previousBtn = some 4 ∧
    ¬(5 < 1) ∧ ¬(4 < 1) := by
  decide

/-- C9 amended: "Previous" decrements with a floor clamp at 0 and "Next"
increments with a ceiling clamp at length-1, but the stored cursor is only
re-clamped on a button click; the row access is guaranteed in range only when
the stored cursor is itself within `[0, length-1]` for the current filtered
sequence (or not yet initialised).  Under that premise every access index is
in range for any non-empty filtered sequence. -/
theorem navigation_access_in_range (dfLen : Nat) (ci : Option Nat)
    (b : NavButton) (i : Nat) (hci : ∀ j, ci = some j → j < dfLen)
    (hnav : navigation dfLen ci b = some i) : i < dfLen := by
  unfold navigation at hnav
  by_cases h0 : dfLen = 0
  · rw [if_pos h0] at hnav
    exact absurd hnav (by simp)
  · rw [if_neg h0] at hnav
    have hlen : 0 < dfLen := Nat.pos_of_ne_zero h0
    have hci0 : ci.getD 0 < dfLen := by
      cases ci with
      | none => simpa using hlen
      | some j => simpa using hci j rfl
    have hi := Option.some.inj hnav
    cases b with
    | noClick =>
      dsimp only at hi
      omega
    | previousBtn =>
      dsimp only at hi
      rw [Nat.max_def] at hi
      rcases le_or_lt (ci.getD 0 - 1) 0 with hle | hlt
      · rw [if_pos hle] at hi
        omega
      · rw [if_neg (by omega)] at hi
        omega
    | nextBtn =>
      dsimp only at hi
      rw [Nat.min_def] at hi
      rcases le_or_lt (ci.getD 0 + 1) (dfLen - 1) with hle | hlt
      · rw [if_pos hle] at hi
        omega
      · rw [if_neg (not_le.mpr hlt)] at hi
        omega

theorem navigation_access_in_range_witness :
    navigation 1 none NavButton.noClick = some 0 ∧ 0 < 1 :=
  ⟨by decide,
    navigation_access_in_range 1 none NavButton.noClick 0
      (fun j h => nomatch h) (by decide)⟩

end CapsuleLabeler
